import Mathlib

/-!
Verification of the augmentation-search orchestration in
`examples/plot_data_augmentation_search.py`.

The script builds three per-kind lists of augmentation configurations by
sweeping one strength parameter with `numpy.linspace`, concatenates them
into a candidate grid, runs a 2-fold shuffled cross-validated grid search
(`GridSearchCV` with `error_score='raise'`, `refit=True`), ranks the
configurations by mean validation score, selects the rank-1 row of the
result table with an equality filter plus `squeeze`, refits on the full
training set and finally scores the refit model on the held-out
evaluation session.

Numeric values are embedded as rationals; the external collaborators
(grid search, K-fold splitter, trainable model) are embedded as explicit
Lean functions following the script's configuration of them and the
specification's description of their contracts.
-/

namespace AugSearch

/-- The three transform kinds used by the script: `FTSurrogate`
(frequency domain), `SmoothTimeMask` (time domain), `ChannelsDropout`
(spatial domain). -/
inductive TransformKind where
  | freq
  | time
  | spatial
deriving DecidableEq, Repr

/-- One augmentation configuration: a transform kind, the stored strength
parameter (`phase_noise_magnitude`, `mask_len_samples` or `p_drop`), the
application probability and the random seed passed at construction. -/
structure AugmentationConfig where
  kind : TransformKind
  param : ℚ
  probability : ℚ
  randomState : ℕ
deriving DecidableEq, Repr

/-- Fixed seed used by the script for every transform and for the fold
splitter (`seed = 20200220`). -/
def seed : ℕ := 20200220

/-- Embedding of `numpy.linspace lo hi n` (with the default
`endpoint=True`): `n` evenly spaced values from `lo` to `hi` inclusive;
a single value `lo` when `n = 1`, empty when `n = 0`. -/
def linspace (lo hi : ℚ) (n : ℕ) : List ℚ :=
  if n = 0 then []
  else if n = 1 then [lo]
  else (List.range n).map (fun (i : ℕ) => lo + (hi - lo) * (i : ℚ) / ((n : ℚ) - 1))

/-- Embedding of Python `int(q)`: truncation toward zero. -/
def pyInt (q : ℚ) : ℤ :=
  if 0 ≤ q then ⌊q⌋ else ⌈q⌉

/-- How the script stores the swept value as the transform's parameter:
the frequency and spatial kinds store the sampled value directly, while
the time kind stores `int(sfreq * second)` (it converts the sampled
seconds into a whole number of samples, `mask_len_samples`). -/
def storeParam (k : TransformKind) (sfreq v : ℚ) : ℚ :=
  match k with
  | .time => (pyInt (sfreq * v) : ℚ)
  | _ => v

/-- One per-kind sequence of the Transform Catalog Builder: sweep the
closed range `[lo, hi]` with `n` linearly interpolated samples and build
one configuration per sample, all sharing probability `1/2` and the fixed
seed, exactly as the script's three list comprehensions do. -/
def buildKind (k : TransformKind) (sfreq lo hi : ℚ) (n : ℕ) : List AugmentationConfig :=
  (linspace lo hi n).map (fun v => ⟨k, storeParam k sfreq v, 1/2, seed⟩)

/-- The Transform Catalog Builder: per-kind ranges and sample counts in,
candidate grid out, concatenated in the fixed kind order frequency, then
time, then spatial (the script's `transforms_freq + transforms_time +
transforms_spatial`). -/
def buildGrid (sfreq : ℚ) (loF hiF : ℚ) (nF : ℕ) (loT hiT : ℚ) (nT : ℕ)
    (loS hiS : ℚ) (nS : ℕ) : List AugmentationConfig :=
  buildKind .freq sfreq loF hiF nF ++ buildKind .time sfreq loT hiT nT ++
    buildKind .spatial sfreq loS hiS nS

/-- The script's `transforms_freq`: `FTSurrogate` with
`phase_noise_magnitude` swept over `linspace(0, 1, 2)`. -/
def transforms_freq : List AugmentationConfig :=
  buildKind .freq 0 0 1 2

/-- The script's `transforms_time`: `SmoothTimeMask` with
`mask_len_samples = int(sfreq * second)` for `second` swept over
`linspace(0.1, 2, 2)`; `sfreq` is read from the dataset at run time. -/
def transforms_time (sfreq : ℚ) : List AugmentationConfig :=
  buildKind .time sfreq (1/10) 2 2

/-- The script's `transforms_spatial`: `ChannelsDropout` with `p_drop`
swept over `linspace(0, 1, 2)`. -/
def transforms_spatial : List AugmentationConfig :=
  buildKind .spatial 0 0 1 2

/-- The script's candidate grid
`transforms = transforms_freq + transforms_time + transforms_spatial`. -/
def transforms (sfreq : ℚ) : List AugmentationConfig :=
  transforms_freq ++ transforms_time sfreq ++ transforms_spatial

/-- One cross-validation fold: indices (into the training subset) used
for training and for validation. -/
structure Fold where
  trainIdx : List ℕ
  validIdx : List ℕ
deriving DecidableEq, Repr

/-- Scores recorded for one (configuration, fold) training run: the
validation (`test`) score and the training score, as `GridSearchCV`
records with `return_train_score=True`. -/
structure FoldResult where
  testScore : ℚ
  trainScore : ℚ
deriving DecidableEq, Repr

/-- Linear congruential step used to drive the shuffled fold split. -/
def lcg (s : ℕ) : ℕ := (1103515245 * s + 12345) % 2 ^ 31

/-- Fisher-Yates style extraction driven by the seed stream; the fuel is
the list length, so every element is consumed exactly once. -/
def shuffleGo : ℕ → ℕ → List ℕ → List ℕ
  | 0, _, _ => []
  | fuel + 1, s, l =>
    if l.isEmpty then []
    else
      let i := s % l.length
      l.getD i 0 :: shuffleGo fuel (lcg s) (l.eraseIdx i)

/-- Modelled from the spec: the shuffled index permutation underlying
`KFold(n_splits=2, shuffle=True, random_state=seed)` — `sklearn` itself
is outside the repository; the spec only requires a shuffled split that
is deterministic given the seed. -/
def shuffleList (s : ℕ) (l : List ℕ) : List ℕ :=
  shuffleGo l.length s l

/-- Start offset of fold `i` in the shuffled index list (`sklearn`
gives the first `n % k` folds one extra sample). -/
def foldStart (n k i : ℕ) : ℕ := i * (n / k) + min i (n % k)

/-- Size of fold `i`. -/
def foldSize (n k i : ℕ) : ℕ := n / k + if i < n % k then 1 else 0

/-- Modelled from the spec: `KFold(k, shuffle=True, random_state=s).split`
on `n` training samples — shuffle `0..n-1` with the seed, take fold `i`'s
slice as validation indices and the rest as training indices. -/
def kfoldSplit (s k n : ℕ) : List Fold :=
  let idx := shuffleList s (List.range n)
  (List.range k).map (fun i =>
    { trainIdx := idx.take (foldStart n k i) ++ idx.drop (foldStart n k i + foldSize n k i)
      validIdx := (idx.drop (foldStart n k i)).take (foldSize n k i) })

/-- One ranked row of `search.cv_results_`: the configuration, its mean
validation score (`mean_test_score`), its mean training score
(`mean_train_score`) and its `rank_test_score`. -/
structure CvEntry where
  config : AugmentationConfig
  meanTest : ℚ
  meanTrain : ℚ
  rank : ℕ
deriving DecidableEq, Repr

/-- Mean of a list of rationals (`0` for the empty list, matching
`numpy.mean`'s `0/0` degenerate case only in that it is some value; the
search always has `k ≥ 1` folds). -/
def meanQ (l : List ℚ) : ℚ := l.sum / l.length

/-- Per-configuration aggregate before ranking. -/
structure AggRow where
  config : AugmentationConfig
  meanTest : ℚ
  meanTrain : ℚ
deriving DecidableEq, Repr

/-- Number of rows whose mean validation score strictly exceeds `v`. -/
def countGreater (l : List AggRow) (v : ℚ) : ℕ :=
  (l.filter (fun y => decide (v < y.meanTest))).length

/-- Modelled from the spec: `GridSearchCV`'s `rank_test_score`, computed
with competition ranking — rank 1 goes to the highest mean validation
score, and a row's rank is one plus the number of rows strictly better
than it (so tied rows share a rank). -/
def assignRanks (l : List AggRow) : List CvEntry :=
  l.map (fun x => ⟨x.config, x.meanTest, x.meanTrain, 1 + countGreater l x.meanTest⟩)

/-- Run one configuration over the folds in order, stopping at the first
fit failure (`error_score='raise'` makes any failure propagate). Returns
the per-fold results together with the log of attempted fit calls. -/
def runFolds (fit : AugmentationConfig → Fold → Except String FoldResult)
    (cfg : AugmentationConfig) :
    List Fold → Except String (List FoldResult) × List (AugmentationConfig × Fold)
  | [] => (.ok [], [])
  | f :: fs =>
    match fit cfg f with
    | .error e => (.error e, [(cfg, f)])
    | .ok r =>
      let rest := runFolds fit cfg fs
      (rest.1.map (fun rs => r :: rs), (cfg, f) :: rest.2)

/-- Run every configuration of the grid over the folds, aggregating each
configuration's fold results into its mean validation and mean training
score; the first fit failure aborts everything after it. The second
component logs every attempted fit call. -/
def runConfigs (fit : AugmentationConfig → Fold → Except String FoldResult)
    (folds : List Fold) :
    List AugmentationConfig → Except String (List AggRow) × List (AugmentationConfig × Fold)
  | [] => (.ok [], [])
  | c :: cs =>
    let fr := runFolds fit c folds
    match fr.1 with
    | .error e => (.error e, fr.2)
    | .ok frs =>
      let row : AggRow :=
        ⟨c, meanQ (frs.map FoldResult.testScore), meanQ (frs.map FoldResult.trainScore)⟩
      let rest := runConfigs fit folds cs
      (rest.1.map (fun rows => row :: rows), fr.2 ++ rest.2)

/-- Modelled from the spec: the `GridSearchCV.fit` orchestration the
script invokes — an empty candidate grid is rejected before any fold
processing (a configuration error raised by the library's parameter-grid
validation), otherwise every configuration is cross-validated and the
aggregate rows are ranked. The second component logs the fit calls. -/
def gridSearch (fit : AugmentationConfig → Fold → Except String FoldResult)
    (grid : List AugmentationConfig) (folds : List Fold) :
    Except String (List CvEntry) × List (AugmentationConfig × Fold) :=
  if grid.isEmpty then
    (.error "ConfigurationError: parameter grid is empty", [])
  else
    let res := runConfigs fit folds grid
    (res.1.map assignRanks, res.2)

/-- Rows of the report holding rank 1, i.e. the script's
`search_results[search_results['rank_test_score'] == 1]`. -/
def bestRows (report : List CvEntry) : List CvEntry :=
  report.filter (fun e => e.rank = 1)

/-- Result shape of `pandas.DataFrame.squeeze`: a one-row frame squeezes
to that single row (a Series), anything else stays frame-shaped. -/
inductive Squeezed (α : Type) where
  | row (a : α)
  | frame (l : List α)
deriving DecidableEq, Repr

/-- Embedding of `.squeeze()` as applied to the rank-1 row selection. -/
def squeeze (l : List CvEntry) : Squeezed CvEntry :=
  match l with
  | [a] => .row a
  | _ => .frame l

/-- First rank-1 row of the report; `GridSearchCV` with `refit=True`
refits `best_index_`, the first index achieving the best mean validation
score, which under competition ranking is the first rank-1 row. -/
def selectBest (report : List CvEntry) : Option CvEntry :=
  report.find? (fun e => e.rank = 1)

/-- The full orchestration the script runs on a training subset of
`nTrain` samples and an evaluation subset of `nEval` samples, the
samples being numbered `0..nTrain-1` (training, session T) and
`nTrain..nTrain+nEval-1` (evaluation, session E): build the folds from
the seed over the training indices only, run the grid search, select the
best configuration, refit it on the whole training index range, and
score the refit model on the evaluation index range. Returns the ranked
report together with the final evaluation outcome. -/
def runPipeline {Model : Type}
    (fit : AugmentationConfig → Fold → Except String FoldResult)
    (refit : AugmentationConfig → List ℕ → Model)
    (scoreFn : Model → List ℕ → ℚ)
    (s k nTrain nEval : ℕ) (grid : List AugmentationConfig) :
    Except String (List CvEntry × ℚ) :=
  let folds := kfoldSplit s k nTrain
  match (gridSearch fit grid folds).1 with
  | .error e => .error e
  | .ok report =>
    match selectBest report with
    | none => .error "no rank-1 row"
    | some best =>
      let m := refit best.config (List.range nTrain)
      .ok (report, scoreFn m (List.range' nTrain nEval))

/-- Concrete frequency-kind configuration used in witness runs. -/
def cfgA : AugmentationConfig := ⟨.freq, 0, 1/2, seed⟩

/-- Concrete spatial-kind configuration used in witness runs. -/
def cfgB : AugmentationConfig := ⟨.spatial, 1, 1/2, seed⟩

/-- Concrete fold used in witness runs. -/
def foldA : Fold := ⟨[0], [1]⟩

/-- Trainable-model stand-in that always scores `1/2` (produces ties). -/
def fitHalf : AugmentationConfig → Fold → Except String FoldResult :=
  fun _ _ => .ok ⟨1/2, 1/2⟩

/-- Trainable-model stand-in whose score is the configuration's strength
parameter (produces distinct mean scores for distinct parameters). -/
def fitParam : AugmentationConfig → Fold → Except String FoldResult :=
  fun cfg _ => .ok ⟨cfg.param, cfg.param⟩

/-- Trainable-model stand-in that always fails to fit. -/
def fitFail : AugmentationConfig → Fold → Except String FoldResult :=
  fun _ _ => .error "TrainingFailure"

/-- The tied report produced by `fitHalf` on the grid `[cfgA, cfgB]`. -/
def reportT : List CvEntry := [⟨cfgA, 1/2, 1/2, 1⟩, ⟨cfgB, 1/2, 1/2, 1⟩]

/-- The tie-free report produced by `fitParam` on the grid `[cfgA, cfgB]`. -/
def reportP : List CvEntry := [⟨cfgA, 0, 0, 2⟩, ⟨cfgB, 1, 1, 1⟩]

theorem linspace_length (lo hi : ℚ) (n : ℕ) : (linspace lo hi n).length = n := by
  unfold linspace
  split
  · simp [*]
  · split
    · simp [*]
    · rw [List.length_map, List.length_range]

theorem linspace_two (lo hi : ℚ) : linspace lo hi 2 = [lo, hi] := by
  norm_num [linspace, List.range_succ]

theorem linspace_head (lo hi : ℚ) (n : ℕ) (h : 2 ≤ n) :
    (linspace lo hi n).head? = some lo := by
  obtain ⟨m, rfl⟩ : ∃ m, n = m + 2 := ⟨n - 2, by omega⟩
  unfold linspace
  rw [if_neg (by omega), if_neg (by omega)]
  rw [show List.range (m + 2) = 0 :: List.map Nat.succ (List.range (m + 1)) from
    List.range_succ_eq_map (m + 1)]
  simp

theorem linspace_getLast (lo hi : ℚ) (n : ℕ) (h : 2 ≤ n) :
    (linspace lo hi n).getLast? = some hi := by
  obtain ⟨m, rfl⟩ : ∃ m, n = m + 2 := ⟨n - 2, by omega⟩
  unfold linspace
  rw [if_neg (by omega), if_neg (by omega)]
  rw [List.getLast?_eq_getElem?, List.length_map, List.length_range]
  have hidx : m + 2 - 1 = m + 1 := by omega
  rw [hidx, List.getElem?_map, List.getElem?_range (by omega)]
  have hm : ((m : ℚ) + 1) ≠ 0 := by positivity
  rw [Option.map_some']
  simp only [Option.some.injEq]
  push_cast
  have h2 : ((m : ℚ) + 2 - 1) = (m : ℚ) + 1 := by ring
  rw [h2]
  field_simp

theorem buildKind_length (k : TransformKind) (sfreq lo hi : ℚ) (n : ℕ) :
    (buildKind k sfreq lo hi n).length = n := by
  simp [buildKind, linspace_length]

/-- C4: for all valid per-kind ranges (lower ≤ upper) and sample counts
(≥ 1), the Transform Catalog Builder produces a CandidateGrid whose
length equals the sum of the three per-kind sample counts, and the grid
is the concatenation of the per-kind sequences in the fixed order
frequency, then time, then spatial. -/
theorem C4_grid_length (sfreq loF hiF loT hiT loS hiS : ℚ) (nF nT nS : ℕ)
    (hF : 1 ≤ nF) (hT : 1 ≤ nT) (hS : 1 ≤ nS)
    (hrF : loF ≤ hiF) (hrT : loT ≤ hiT) (hrS : loS ≤ hiS) :
    (buildGrid sfreq loF hiF nF loT hiT nT loS hiS nS).length = nF + nT + nS ∧
    buildGrid sfreq loF hiF nF loT hiT nT loS hiS nS =
      buildKind TransformKind.freq sfreq loF hiF nF ++
        buildKind TransformKind.time sfreq loT hiT nT ++
        buildKind TransformKind.spatial sfreq loS hiS nS := by
  refine ⟨?_, rfl⟩
  simp [buildGrid, buildKind_length]
  omega

/-- Witness for C4 at the script's own grid (ranges `[0,1]`, `[0.1,2]`,
`[0,1]`, two samples per kind, `sfreq = 250`): the grid has 2+2+2
elements. -/
theorem C4_witness :
    (buildGrid 250 0 1 2 (1/10) 2 2 0 1 2).length = 2 + 2 + 2 ∧
    buildGrid 250 0 1 2 (1/10) 2 2 0 1 2 =
      buildKind TransformKind.freq 250 0 1 2 ++
        buildKind TransformKind.time 250 (1/10) 2 2 ++
        buildKind TransformKind.spatial 250 0 1 2 :=
  C4_grid_length 250 0 1 (1/10) 2 0 1 2 2 2 (by decide) (by decide) (by decide)
    zero_le_one (by norm_num) zero_le_one

/-- C5 counterexample: the claim asserts that for each transform kind
the first and last per-kind elements carry parameter values equal to the
range's bounds exactly, but the script's own time-domain list (range
`[0.1, 2]`, two samples, `sfreq = 250`) stores `int(sfreq * t)`, so its
elements carry 25 and 500, not 0.1 and 2. -/
theorem C5_counterexample :
    (transforms_time 250).map AugmentationConfig.param = [25, 500] ∧
    (25 : ℚ) ≠ 1/10 ∧ (500 : ℚ) ≠ 2 := by
  refine ⟨?_, by norm_num, by norm_num⟩
  simp [transforms_time, buildKind, linspace_two, storeParam, pyInt]
  norm_num

/-- C5 amended: the sampled values are obtained by linear interpolation
across the closed range inclusive of both endpoints; for the frequency
and spatial kinds the stored parameter is the sampled value itself, so
the first and last elements carry exactly the range's bounds (in
particular range `[0,1]` with 2 samples for the frequency kind yields
exactly the parameter values 0 and 1), while for the time kind the
stored parameter is the truncation `int(sfreq * t)` of the sampled
value, not the sampled value itself. -/
theorem C5_endpoints (sfreq lo hi : ℚ) (n : ℕ) (h : 2 ≤ n) :
    ((buildKind TransformKind.freq sfreq lo hi n).head?.map AugmentationConfig.param
        = some lo ∧
      (buildKind TransformKind.freq sfreq lo hi n).getLast?.map AugmentationConfig.param
        = some hi) ∧
    ((buildKind TransformKind.spatial sfreq lo hi n).head?.map AugmentationConfig.param
        = some lo ∧
      (buildKind TransformKind.spatial sfreq lo hi n).getLast?.map AugmentationConfig.param
        = some hi) ∧
    ((buildKind TransformKind.time sfreq lo hi n).head?.map AugmentationConfig.param
        = some ((pyInt (sfreq * lo) : ℤ) : ℚ) ∧
      (buildKind TransformKind.time sfreq lo hi n).getLast?.map AugmentationConfig.param
        = some ((pyInt (sfreq * hi) : ℤ) : ℚ)) ∧
    (buildKind TransformKind.freq sfreq 0 1 2).map AugmentationConfig.param = [0, 1] := by
  refine ⟨⟨?_, ?_⟩, ⟨?_, ?_⟩, ⟨?_, ?_⟩, ?_⟩ <;>
    simp [buildKind, linspace_head lo hi n h, linspace_getLast lo hi n h,
      linspace_two, storeParam]

/-- Witness for C5 amended, at the script's frequency range `[0,1]` with
2 samples and `sfreq = 250`. -/
theorem C5_witness :
    ((buildKind TransformKind.freq 250 0 1 2).head?.map AugmentationConfig.param
        = some 0 ∧
      (buildKind TransformKind.freq 250 0 1 2).getLast?.map AugmentationConfig.param
        = some 1) ∧
    ((buildKind TransformKind.spatial 250 0 1 2).head?.map AugmentationConfig.param
        = some 0 ∧
      (buildKind TransformKind.spatial 250 0 1 2).getLast?.map AugmentationConfig.param
        = some 1) ∧
    ((buildKind TransformKind.time 250 0 1 2).head?.map AugmentationConfig.param
        = some ((pyInt (250 * 0) : ℤ) : ℚ) ∧
      (buildKind TransformKind.time 250 0 1 2).getLast?.map AugmentationConfig.param
        = some ((pyInt (250 * 1) : ℤ) : ℚ)) ∧
    (buildKind TransformKind.freq 250 0 1 2).map AugmentationConfig.param = [0, 1] :=
  C5_endpoints 250 0 1 2 (by decide)

/-- C9: every configuration of the script's grid, across all three
kinds, carries application probability `1/2` and random seed `20200220`;
consequently any two grid elements agree on both fields, so only the
kind and its swept strength parameter distinguish them. -/
theorem C9_shared_prob_seed (sfreq : ℚ) :
    (∀ cfg ∈ transforms sfreq, cfg.probability = 1/2 ∧ cfg.randomState = 20200220) ∧
    (∀ c1 ∈ transforms sfreq, ∀ c2 ∈ transforms sfreq,
      c1.probability = c2.probability ∧ c1.randomState = c2.randomState) := by
  have base : ∀ cfg ∈ transforms sfreq,
      cfg.probability = 1/2 ∧ cfg.randomState = 20200220 := by
    intro cfg hm
    simp only [transforms, transforms_freq, transforms_time, transforms_spatial,
      buildKind, List.mem_append, List.mem_map] at hm
    rcases hm with (⟨v, _, rfl⟩ | ⟨v, _, rfl⟩) | ⟨v, _, rfl⟩ <;> exact ⟨rfl, rfl⟩
  refine ⟨base, ?_⟩
  intro c1 h1 c2 h2
  obtain ⟨hp1, hs1⟩ := base c1 h1
  obtain ⟨hp2, hs2⟩ := base c2 h2
  exact ⟨hp1.trans hp2.symm, hs1.trans hs2.symm⟩

/-- Witness for C9: the first element of the grid at `sfreq = 250`. -/
theorem C9_witness :
    (⟨TransformKind.freq, 0, 1/2, 20200220⟩ : AugmentationConfig).probability = 1/2 ∧
    (⟨TransformKind.freq, 0, 1/2, 20200220⟩ : AugmentationConfig).randomState = 20200220 :=
  (C9_shared_prob_seed 250).1 ⟨TransformKind.freq, 0, 1/2, 20200220⟩
    (by simp [transforms, transforms_freq, buildKind, linspace_two, storeParam, seed])

/-- C10: the time-domain list stores `int(sfreq * t)` for each sampled
seconds value `t`, not `t` itself; at the dataset's `sfreq = 250` the
stored endpoints are 25 and 500, which differ from the range bounds 0.1
and 2; and two distinct seconds values (0.1 and 0.101) truncate to the
same stored parameter 25. -/
theorem C10_time_truncation (sfreq : ℚ) :
    ((transforms_time sfreq).map AugmentationConfig.param =
      [((pyInt (sfreq * (1/10)) : ℤ) : ℚ), ((pyInt (sfreq * 2) : ℤ) : ℚ)]) ∧
    ((transforms_time 250).map AugmentationConfig.param = [25, 500] ∧
      (25 : ℚ) ≠ 1/10 ∧ (500 : ℚ) ≠ 2) ∧
    ((1/10 : ℚ) ≠ 101/1000 ∧ pyInt (250 * (1/10)) = pyInt (250 * (101/1000))) := by
  refine ⟨?_, ⟨?_, by norm_num, by norm_num⟩, ⟨by norm_num, ?_⟩⟩
  · simp [transforms_time, buildKind, linspace_two, storeParam]
  · simp [transforms_time, buildKind, linspace_two, storeParam, pyInt]
    norm_num
  · norm_num [pyInt]

theorem gridSearch_ok (fit : AugmentationConfig → Fold → Except String FoldResult)
    (grid : List AugmentationConfig) (folds : List Fold) (report : List CvEntry)
    (h : (gridSearch fit grid folds).1 = Except.ok report) :
    ∃ l, (runConfigs fit folds grid).1 = Except.ok l ∧ report = assignRanks l ∧
      grid ≠ [] := by
  unfold gridSearch at h
  by_cases hg : grid.isEmpty
  · rw [if_pos hg] at h
    cases h
  · rw [if_neg hg] at h
    dsimp only at h
    cases hres : (runConfigs fit folds grid).1 with
    | error e =>
      rw [hres] at h
      simp [Except.map] at h
    | ok l =>
      rw [hres] at h
      simp only [Except.map] at h
      exact ⟨l, rfl, (Except.ok.injEq _ _ ▸ h).symm,
        by simpa using hg⟩

theorem countGreater_eq_zero (l : List AggRow) (v : ℚ)
    (hc : countGreater l v = 0) : ∀ z ∈ l, ¬ (v < z.meanTest) := by
  intro z hz
  have hnil := List.length_eq_zero.mp hc
  have := List.filter_eq_nil_iff.mp hnil z hz
  simpa using this

theorem rank_one_ge (l : List AggRow) (e : CvEntry)
    (he : e ∈ assignRanks l) (hr : e.rank = 1) :
    ∀ e2 ∈ assignRanks l, e2.meanTest ≤ e.meanTest := by
  intro e2 he2
  rcases List.mem_map.mp he with ⟨x, hx, rfl⟩
  rcases List.mem_map.mp he2 with ⟨y, hy, rfl⟩
  have hc : countGreater l x.meanTest = 0 := by
    have h1 : 1 + countGreater l x.meanTest = 1 := hr
    omega
  exact le_of_not_lt (countGreater_eq_zero l x.meanTest hc y hy)

/-- C1: in every report produced by a successful grid search, any
configuration assigned rank 1 has a mean validation score greater than
or equal to the mean validation score of every other configuration. -/
theorem C1_rank_one_max (fit : AugmentationConfig → Fold → Except String FoldResult)
    (grid : List AugmentationConfig) (folds : List Fold) (report : List CvEntry)
    (h : (gridSearch fit grid folds).1 = Except.ok report)
    (e : CvEntry) (he : e ∈ report) (hr : e.rank = 1) :
    ∀ e2 ∈ report, e2.meanTest ≤ e.meanTest := by
  obtain ⟨l, -, rfl, -⟩ := gridSearch_ok fit grid folds report h
  exact rank_one_ge l e he hr

/-- Witness for C1: on the two-configuration grid scored by `fitParam`
the rank-1 entry (mean score 1) dominates the rank-2 entry (mean
score 0). -/
theorem C1_witness :
    (⟨cfgA, 0, 0, 2⟩ : CvEntry).meanTest ≤ (⟨cfgB, 1, 1, 1⟩ : CvEntry).meanTest :=
  C1_rank_one_max fitParam [cfgA, cfgB] [foldA] reportP
    (by simp [gridSearch, runConfigs, runFolds, fitParam, meanQ, assignRanks, countGreater,
      reportP, cfgA, cfgB, Except.map])
    ⟨cfgB, 1, 1, 1⟩ (by simp [reportP]) rfl
    ⟨cfgA, 0, 0, 2⟩ (by simp [reportP])

theorem exists_max_row (l : List AggRow) (hne : l ≠ []) :
    ∃ x ∈ l, ∀ y ∈ l, y.meanTest ≤ x.meanTest := by
  induction l with
  | nil => exact absurd rfl hne
  | cons a t ih =>
    cases t with
    | nil =>
      refine ⟨a, List.mem_cons_self a [], ?_⟩
      intro y hy
      rcases List.mem_cons.mp hy with rfl | h
      · exact le_refl _
      · cases h
    | cons b t2 =>
      obtain ⟨x, hx, hmax⟩ := ih (by simp)
      rcases le_total a.meanTest x.meanTest with hax | hxa
      · refine ⟨x, List.mem_cons_of_mem a hx, ?_⟩
        intro y hy
        rcases List.mem_cons.mp hy with rfl | h
        · exact hax
        · exact hmax y h
      · refine ⟨a, List.mem_cons_self a _, ?_⟩
        intro y hy
        rcases List.mem_cons.mp hy with rfl | h
        · exact le_refl _
        · exact (hmax y h).trans hxa

theorem exists_rank_one (l : List AggRow) (hne : l ≠ []) :
    ∃ e ∈ assignRanks l, e.rank = 1 := by
  obtain ⟨x, hx, hmax⟩ := exists_max_row l hne
  refine ⟨⟨x.config, x.meanTest, x.meanTrain, 1 + countGreater l x.meanTest⟩,
    List.mem_map.mpr ⟨x, hx, rfl⟩, ?_⟩
  have hcz : countGreater l x.meanTest = 0 := by
    unfold countGreater
    rw [List.length_eq_zero, List.filter_eq_nil_iff]
    intro z hz
    simpa using not_lt.mpr (hmax z hz)
  simp [hcz]

theorem runConfigs_ok_length (fit : AugmentationConfig → Fold → Except String FoldResult)
    (folds : List Fold) :
    ∀ (grid : List AugmentationConfig) (l : List AggRow),
      (runConfigs fit folds grid).1 = Except.ok l → l.length = grid.length := by
  intro grid
  induction grid with
  | nil =>
    intro l h
    cases h
    rfl
  | cons c cs ih =>
    intro l h
    unfold runConfigs at h
    dsimp only at h
    cases hrf : (runFolds fit c folds).1 with
    | error e =>
      rw [hrf] at h
      cases h
    | ok frs =>
      rw [hrf] at h
      dsimp only at h
      cases hrest : (runConfigs fit folds cs).1 with
      | error e =>
        rw [hrest] at h
        simp [Except.map] at h
      | ok rows =>
        rw [hrest] at h
        simp only [Except.map, Except.ok.injEq] at h
        subst h
        simp [ih rows hrest]

/-- C2 counterexample: the claim asserts that the best-selection step
yields a single well-defined configuration in all cases, with ties
resolved to the row the ranking returns first, but on a tied report the
rank-1 filter keeps both rows and `squeeze` leaves a two-row frame, not
a single configuration: with both configurations scoring `1/2`, the
search succeeds, both rows hold rank 1, and the squeezed selection is
the whole two-row frame. -/
theorem C2_counterexample :
    (gridSearch fitHalf [cfgA, cfgB] [foldA]).1 = Except.ok reportT ∧
    bestRows reportT = reportT ∧
    reportT.length = 2 ∧
    cfgA ≠ cfgB ∧
    squeeze (bestRows reportT) = Squeezed.frame reportT := by
  refine ⟨?_, ?_, rfl, by simp [cfgA, cfgB], ?_⟩
  · simp [gridSearch, runConfigs, runFolds, fitHalf, meanQ, assignRanks, countGreater,
      reportT, cfgA, cfgB, Except.map]
  · simp [bestRows, reportT]
  · rw [show bestRows reportT = reportT by simp [bestRows, reportT]]
    rfl

/-- C2 amended: after ranking, if no two configurations tie on mean
validation score then exactly one row holds rank 1 and the filter-plus-
`squeeze` selection yields exactly that single row; if several rows tie
for rank 1, the filter keeps all of them and `squeeze` returns the
multi-row frame rather than a single configuration. -/
theorem C2_best_selection (fit : AugmentationConfig → Fold → Except String FoldResult)
    (grid : List AugmentationConfig) (folds : List Fold) (report : List CvEntry)
    (h : (gridSearch fit grid folds).1 = Except.ok report) :
    (report.Pairwise (fun a b => a.meanTest ≠ b.meanTest) →
      ∃ e, bestRows report = [e] ∧ squeeze (bestRows report) = Squeezed.row e) ∧
    (2 ≤ (bestRows report).length →
      squeeze (bestRows report) = Squeezed.frame (bestRows report)) := by
  constructor
  · intro hpw
    obtain ⟨l, hrc, hrep, hgne⟩ := gridSearch_ok fit grid folds report h
    subst hrep
    have hlne : l ≠ [] := by
      intro hl
      have := runConfigs_ok_length fit folds grid l hrc
      rw [hl] at this
      exact hgne (List.length_eq_zero.mp this.symm)
    obtain ⟨estar, hes, hesr⟩ := exists_rank_one l hlne
    have hdom : ∀ e2 ∈ assignRanks l, e2.meanTest ≤ estar.meanTest :=
      rank_one_ge l estar hes hesr
    have hmemb : estar ∈ bestRows (assignRanks l) :=
      List.mem_filter.mpr ⟨hes, by simpa using hesr⟩
    have hsame : ∀ y ∈ bestRows (assignRanks l), y.meanTest = estar.meanTest := by
      intro y hy
      obtain ⟨hyrep, hyr⟩ := List.mem_filter.mp hy
      have hyr1 : y.rank = 1 := by simpa using hyr
      have hydom : ∀ e2 ∈ assignRanks l, e2.meanTest ≤ y.meanTest :=
        rank_one_ge l y hyrep hyr1
      exact le_antisymm (hdom y hyrep) (hydom estar hes)
    have hpwb : (bestRows (assignRanks l)).Pairwise (fun a b => a.meanTest ≠ b.meanTest) :=
      hpw.sublist (List.filter_sublist (assignRanks l))
    cases hbr : bestRows (assignRanks l) with
    | nil =>
      rw [hbr] at hmemb
      cases hmemb
    | cons a t =>
      cases t with
      | nil =>
        rw [hbr] at hmemb
        rcases List.mem_cons.mp hmemb with rfl | hmm
        · exact ⟨estar, rfl, rfl⟩
        · cases hmm
      | cons b t2 =>
        exfalso
        rw [hbr] at hpwb hsame
        have hab : a.meanTest ≠ b.meanTest :=
          (List.pairwise_cons.mp hpwb).1 b (List.mem_cons_self b t2)
        have ha := hsame a (List.mem_cons_self a _)
        have hb := hsame b (List.mem_cons_of_mem a (List.mem_cons_self b t2))
        exact hab (ha.trans hb.symm)
  · intro hlen
    cases hbr : bestRows report with
    | nil =>
      rw [hbr] at hlen
      cases hlen
    | cons a t =>
      cases t with
      | nil =>
        rw [hbr] at hlen
        simp at hlen
      | cons b t2 => rfl

/-- Witness for C2 amended: on the tie-free report produced by
`fitParam` the selection yields the single rank-1 row. -/
theorem C2_witness :
    ∃ e, bestRows reportP = [e] ∧ squeeze (bestRows reportP) = Squeezed.row e :=
  (C2_best_selection fitParam [cfgA, cfgB] [foldA] reportP
    (by simp [gridSearch, runConfigs, runFolds, fitParam, meanQ, assignRanks, countGreater,
      reportP, cfgA, cfgB, Except.map])).1
    (by simp [reportP, cfgA, cfgB])

theorem runFolds_ok_fit (fit : AugmentationConfig → Fold → Except String FoldResult)
    (cfg : AugmentationConfig) :
    ∀ (folds : List Fold) (rs : List FoldResult),
      (runFolds fit cfg folds).1 = Except.ok rs →
        ∀ f ∈ folds, ∃ r, fit cfg f = Except.ok r := by
  intro folds
  induction folds with
  | nil =>
    intro rs h f hf
    cases hf
  | cons f0 fs ih =>
    intro rs h f hf
    unfold runFolds at h
    cases hfit : fit cfg f0 with
    | error e =>
      rw [hfit] at h
      cases h
    | ok r =>
      rw [hfit] at h
      dsimp only at h
      rcases List.mem_cons.mp hf with rfl | hmem
      · exact ⟨r, hfit⟩
      · cases hrest : (runFolds fit cfg fs).1 with
        | error e =>
          rw [hrest] at h
          simp [Except.map] at h
        | ok rs2 => exact ih rs2 hrest f hmem

theorem runConfigs_ok_fit (fit : AugmentationConfig → Fold → Except String FoldResult)
    (folds : List Fold) :
    ∀ (grid : List AugmentationConfig) (l : List AggRow),
      (runConfigs fit folds grid).1 = Except.ok l →
        ∀ c ∈ grid, ∃ rs, (runFolds fit c folds).1 = Except.ok rs := by
  intro grid
  induction grid with
  | nil =>
    intro l h c hc
    cases hc
  | cons c0 cs ih =>
    intro l h c hc
    unfold runConfigs at h
    dsimp only at h
    cases hrf : (runFolds fit c0 folds).1 with
    | error e =>
      rw [hrf] at h
      cases h
    | ok frs =>
      rw [hrf] at h
      dsimp only at h
      rcases List.mem_cons.mp hc with rfl | hmem
      · exact ⟨frs, hrf⟩
      · cases hrest : (runConfigs fit folds cs).1 with
        | error e =>
          rw [hrest] at h
          simp [Except.map] at h
        | ok rows => exact ih rows hrest c hmem

/-- C6: if the fit of any (configuration, fold) pair of the search
fails, the whole grid search ends in an error — no report is produced —
and the full pipeline also ends in an error, so no evaluation outcome is
computed (fail-fast, the behavior selected by `error_score='raise'`). -/
theorem C6_fail_fast {Model : Type}
    (fit : AugmentationConfig → Fold → Except String FoldResult)
    (refit : AugmentationConfig → List ℕ → Model) (scoreFn : Model → List ℕ → ℚ)
    (s k nTrain nEval : ℕ) (grid : List AugmentationConfig)
    (cfg : AugmentationConfig) (f : Fold) (e : String)
    (hc : cfg ∈ grid) (hf : f ∈ kfoldSplit s k nTrain)
    (he : fit cfg f = Except.error e) :
    (∃ msg, (gridSearch fit grid (kfoldSplit s k nTrain)).1 = Except.error msg) ∧
    (∃ msg, runPipeline fit refit scoreFn s k nTrain nEval grid = Except.error msg) := by
  have hgs : ∀ report, (gridSearch fit grid (kfoldSplit s k nTrain)).1 ≠ Except.ok report := by
    intro report hok
    obtain ⟨l, hrc, -, -⟩ := gridSearch_ok fit grid _ report hok
    obtain ⟨rs, hrs⟩ := runConfigs_ok_fit fit _ grid l hrc cfg hc
    obtain ⟨r, hr⟩ := runFolds_ok_fit fit cfg _ rs hrs f hf
    rw [he] at hr
    cases hr
  have hfirst : ∃ msg, (gridSearch fit grid (kfoldSplit s k nTrain)).1 = Except.error msg := by
    cases hg : (gridSearch fit grid (kfoldSplit s k nTrain)).1 with
    | error msg => exact ⟨msg, rfl⟩
    | ok report => exact absurd hg (hgs report)
  obtain ⟨msg, hmsg⟩ := hfirst
  refine ⟨⟨msg, hmsg⟩, ⟨msg, ?_⟩⟩
  unfold runPipeline
  dsimp only
  rw [hmsg]

/-- Witness for C6: an always-failing fit on a one-configuration grid
with the seed-0 two-fold split of two training samples aborts both the
grid search and the pipeline. -/
theorem C6_witness :
    (∃ msg, (gridSearch fitFail [cfgA] (kfoldSplit 0 2 2)).1 = Except.error msg) ∧
    (∃ msg, runPipeline fitFail (fun _ _ => ()) (fun _ _ => (0 : ℚ)) 0 2 2 1 [cfgA]
      = Except.error msg) :=
  C6_fail_fast fitFail (fun _ _ => ()) (fun _ _ => (0 : ℚ)) 0 2 2 1 [cfgA] cfgA
    ⟨[1], [0]⟩ "TrainingFailure" (List.mem_cons_self cfgA []) (by decide) rfl

/-- C7: with an empty candidate grid the grid search stops with a
configuration error, its fit-call log is empty (no fit of the trainable
model is ever attempted, hence no fold processing occurs), and the full
pipeline propagates the same error. -/
theorem C7_empty_grid {Model : Type}
    (fit : AugmentationConfig → Fold → Except String FoldResult) (folds : List Fold)
    (refit : AugmentationConfig → List ℕ → Model) (scoreFn : Model → List ℕ → ℚ)
    (s k nTrain nEval : ℕ) :
    (gridSearch fit [] folds).1
        = Except.error "ConfigurationError: parameter grid is empty" ∧
    (gridSearch fit [] folds).2 = [] ∧
    runPipeline fit refit scoreFn s k nTrain nEval []
        = Except.error "ConfigurationError: parameter grid is empty" :=
  ⟨rfl, rfl, rfl⟩

theorem shuffleGo_mem :
    ∀ (fuel s : ℕ) (l : List ℕ) (x : ℕ), x ∈ shuffleGo fuel s l → x ∈ l := by
  intro fuel
  induction fuel with
  | zero =>
    intro s l x h
    cases h
  | succ fu ih =>
    intro s l x h
    unfold shuffleGo at h
    by_cases hl : l.isEmpty
    · rw [if_pos hl] at h
      cases h
    · rw [if_neg hl] at h
      dsimp only at h
      have hlen : 0 < l.length := by
        cases l
        · simp at hl
        · simp
      have hidx : s % l.length < l.length := Nat.mod_lt _ hlen
      rcases List.mem_cons.mp h with rfl | hm
      · rw [List.getD_eq_getElem?_getD, List.getElem?_eq_getElem hidx]
        exact List.getElem_mem hidx
      · exact List.mem_of_mem_eraseIdx (ih (lcg s) (l.eraseIdx (s % l.length)) x hm)

theorem shuffleList_mem (s : ℕ) (l : List ℕ) (x : ℕ) (h : x ∈ shuffleList s l) : x ∈ l :=
  shuffleGo_mem l.length s l x h

theorem kfoldSplit_mem_lt (s k n : ℕ) (fold : Fold) (hf : fold ∈ kfoldSplit s k n) :
    (∀ j ∈ fold.trainIdx, j < n) ∧ (∀ j ∈ fold.validIdx, j < n) := by
  unfold kfoldSplit at hf
  dsimp only at hf
  rcases List.mem_map.mp hf with ⟨i, hi, rfl⟩
  have hrange : ∀ j : ℕ, j ∈ shuffleList s (List.range n) → j < n := by
    intro j hj
    exact List.mem_range.mp (shuffleList_mem s (List.range n) j hj)
  constructor
  · intro j hj
    rcases List.mem_append.mp hj with hjt | hjd
    · exact hrange j (List.mem_of_mem_take hjt)
    · exact hrange j (List.mem_of_mem_drop hjd)
  · intro j hj
    exact hrange j (List.mem_of_mem_drop (List.mem_of_mem_take hj))

/-- C3: on any successful pipeline run, (a) every index of every fold's
training and validation lists is a training-subset index (strictly below
`nTrain`), so no evaluation-subset sample — their indices start at
`nTrain` — appears in any fold of the search; and (b) the evaluation
outcome is the score of the model refit on the whole training index
range, applied to exactly the evaluation index range, i.e. it is
computed only from the evaluation subset and only after the refit. -/
theorem C3_isolation {Model : Type}
    (fit : AugmentationConfig → Fold → Except String FoldResult)
    (refit : AugmentationConfig → List ℕ → Model) (scoreFn : Model → List ℕ → ℚ)
    (s k nTrain nEval : ℕ) (grid : List AugmentationConfig)
    (report : List CvEntry) (outcome : ℚ)
    (h : runPipeline fit refit scoreFn s k nTrain nEval grid = Except.ok (report, outcome)) :
    (∀ fold ∈ kfoldSplit s k nTrain, ∀ j, nTrain ≤ j →
      j ∉ fold.trainIdx ∧ j ∉ fold.validIdx) ∧
    (∃ best, selectBest report = some best ∧
      outcome = scoreFn (refit best.config (List.range nTrain)) (List.range' nTrain nEval)) := by
  constructor
  · intro fold hf j hj
    obtain ⟨ht, hv⟩ := kfoldSplit_mem_lt s k nTrain fold hf
    exact ⟨fun hm => absurd (ht j hm) (by omega), fun hm => absurd (hv j hm) (by omega)⟩
  · unfold runPipeline at h
    dsimp only at h
    cases hg : (gridSearch fit grid (kfoldSplit s k nTrain)).1 with
    | error e =>
      rw [hg] at h
      cases h
    | ok rep =>
      rw [hg] at h
      dsimp only at h
      cases hb : selectBest rep with
      | none =>
        rw [hb] at h
        cases h
      | some best =>
        rw [hb] at h
        dsimp only at h
        simp only [Except.ok.injEq, Prod.mk.injEq] at h
        obtain ⟨hrep, hout⟩ := h
        subst hrep
        exact ⟨best, hb, hout.symm⟩

/-- Witness for C3 at a concrete run: two training samples (indices 0
and 1), one evaluation sample (index 2), seed 0, two folds, a
one-configuration grid. -/
theorem C3_witness :
    (∀ fold ∈ kfoldSplit 0 2 2, ∀ j, 2 ≤ j → j ∉ fold.trainIdx ∧ j ∉ fold.validIdx) ∧
    (∃ best, selectBest [(⟨cfgA, 0, 0, 1⟩ : CvEntry)] = some best ∧
      (3/4 : ℚ) = (fun (_ : Unit) (_ : List ℕ) => (3/4 : ℚ))
        ((fun (_ : AugmentationConfig) (_ : List ℕ) => ()) best.config (List.range 2))
        (List.range' 2 1)) :=
  C3_isolation fitParam (fun _ _ => ()) (fun _ _ => (3/4 : ℚ)) 0 2 2 1 [cfgA]
    [⟨cfgA, 0, 0, 1⟩] (3/4)
    (by simp [runPipeline, gridSearch, runConfigs, runFolds, fitParam, meanQ, assignRanks,
      countGreater, selectBest, kfoldSplit, shuffleList, shuffleGo, lcg, foldStart, foldSize,
      cfgA, Except.map])

/-- C8: determinism of the search — the embedded pipeline derives all of
its randomness (the shuffled fold split) from the seed argument, so two
independent runs over the same data with the same seed produce the same
result (in particular the same ranked report) and the same fold
partition. -/
theorem C8_determinism {Model : Type}
    (fit : AugmentationConfig → Fold → Except String FoldResult)
    (refit : AugmentationConfig → List ℕ → Model) (scoreFn : Model → List ℕ → ℚ)
    (s k nTrain nEval : ℕ) (grid : List AugmentationConfig)
    (r1 r2 : Except String (List CvEntry × ℚ)) (p1 p2 : List Fold)
    (h1 : r1 = runPipeline fit refit scoreFn s k nTrain nEval grid)
    (h2 : r2 = runPipeline fit refit scoreFn s k nTrain nEval grid)
    (hp1 : p1 = kfoldSplit s k nTrain) (hp2 : p2 = kfoldSplit s k nTrain) :
    r1 = r2 ∧ p1 = p2 := by
  subst h1
  subst h2
  subst hp1
  subst hp2
  exact ⟨rfl, rfl⟩

/-- Witness for C8 with the script's seed on a four-sample training
subset. -/
theorem C8_witness :
    runPipeline fitHalf (fun _ _ => ()) (fun _ _ => (0 : ℚ)) 20200220 2 4 2 [cfgA]
      = runPipeline fitHalf (fun _ _ => ()) (fun _ _ => (0 : ℚ)) 20200220 2 4 2 [cfgA] ∧
    kfoldSplit 20200220 2 4 = kfoldSplit 20200220 2 4 :=
  C8_determinism fitHalf (fun _ _ => ()) (fun _ _ => (0 : ℚ)) 20200220 2 4 2 [cfgA]
    _ _ _ _ rfl rfl rfl rfl

end AugSearch
